import Mathlib

/-!
Verification development for the spendly bank-statement parser
(`src/scripts/extract_transactions.py` and
`src/core/data_preprocessor.py`).

The Python code is shallowly embedded over `List Char` / `String`.
Conventions of the embedding:

* Python `str.split()` / `str.strip()` / `str.startswith` / `str.isdigit` /
  `str.isalpha` are modelled at the ASCII level (all inputs the parser is
  specified over are ASCII text lines).
* The word-segmentation dependency `wordninja` (used via
  `split_concatenated_text`) is an external statistical model; it is kept
  abstract as a parameter `seg : String → String` threaded through the
  embedding.  `idSeg` instantiates it with the identity for concrete runs.
* `pd.to_datetime(s, format='%b%d%Y')` followed by `.strftime(...)` is
  modelled by `parseBDY` / `fmtHumanDate` / `fmtISODate`: a Title-case
  three-letter month abbreviation, a 1-2 digit day, exactly four year
  digits and nothing else, with the day validated against the real
  calendar (leap years included); failure (`ValueError` in Python)
  is `Option.none`.
* Python list indexing that can raise `IndexError` (`parts[0]`,
  `parts[-1]`, `parts[-2]`) is modelled with `Except Err`, surfacing the
  exception as `Err.indexError`.
-/

/-- Errors the Python parser can raise: out-of-range list indexing. -/
inductive Err where
  | indexError
deriving DecidableEq

/-- Model of Python `str.split()` over the character list: split on runs of
whitespace, dropping empty words.  `wordsAux cs cur` accumulates the current
word `cur` in reverse. -/
def wordsAux : List Char → List Char → List (List Char)
  | [], cur => if cur = [] then [] else [cur.reverse]
  | c :: cs, cur =>
    if c.isWhitespace then
      if cur = [] then wordsAux cs [] else cur.reverse :: wordsAux cs []
    else
      wordsAux cs (c :: cur)

/-- Python `line.split()`. -/
def pySplit (s : String) : List String :=
  (wordsAux s.data []).map String.mk

/-- Python `line.strip()`: drop whitespace from both ends. -/
def pyStrip (s : String) : String :=
  String.mk (((s.data.dropWhile Char.isWhitespace).reverse.dropWhile Char.isWhitespace).reverse)

/-- Boolean test that `p` is an initial segment of `cs`. -/
def isPre : List Char → List Char → Bool
  | [], _ => true
  | _ :: _, [] => false
  | a :: as, b :: bs => a = b && isPre as bs

/-- Python `s.startswith(p)`. -/
def pyStartsWith (s p : String) : Bool :=
  isPre p.data s.data

/-- Python `s.isdigit()`: non-empty and all digits. -/
def pyIsDigit (s : String) : Bool :=
  !s.data.isEmpty && s.data.all Char.isDigit

/-- Python `s.isalpha()`: non-empty and all alphabetic. -/
def pyIsAlpha (s : String) : Bool :=
  !s.data.isEmpty && s.data.all Char.isAlpha

/-- Python truthiness of the `extracted_year` variable (`None` or a string):
`if extracted_year:` / `if not extracted_year:`. -/
def pyTruthyStr : Option String → Bool
  | none => false
  | some s => if s = "" then false else true

/-- The month-abbreviation list of both parser copies (also the C-locale
`%b` month abbreviations used by `strftime`/`strptime`). -/
def months : List String :=
  ["Jan", "Feb", "Mar", "Apr", "May", "Jun", "Jul", "Aug", "Sep", "Oct", "Nov", "Dec"]

/-- The deposit-marker list `DEPOSIT_TRIGS`, identical in both copies. -/
def DEPOSIT_TRIGS : List String := ["Deposit", "MB-Transferfrom"]

/-- The transaction-start classification of both copies:
`any(line.startswith(month) for month in months)` on the stripped line. -/
def startsNewTx (line : String) : Bool :=
  months.any (fun month => pyStartsWith line month)

/-- Python `\w` at the ASCII level, for `\b` word boundaries. -/
def isWordChar (c : Char) : Bool :=
  c.isAlphanum || c = '_'

/-- Does the regex `\b(20\d{2})\b` match at the start of `cs`, where `pre` is
the character just before `cs` (if any)? -/
def yearAt (pre : Option Char) : List Char → Option String
  | c0 :: c1 :: c2 :: c3 :: rest =>
    if c0 = '2' && c1 = '0' && c2.isDigit && c3.isDigit
        && (match pre with | none => true | some p => !isWordChar p)
        && (match rest with | [] => true | r :: _ => !isWordChar r) then
      some (String.mk [c0, c1, c2, c3])
    else none
  | _ => none

/-- Leftmost match of `re.search(r'\b(20\d{2})\b', ·)`. -/
def searchYear (pre : Option Char) : List Char → Option String
  | [] => none
  | c :: rest =>
    match yearAt pre (c :: rest) with
    | some y => some y
    | none => searchYear (some c) rest

/-- `extract_year(lines)`: first 4-digit year `20\d\d` (with word
boundaries) found scanning the lines in order; `None` if absent. -/
def extract_year : List String → Option String
  | [] => none
  | l :: ls =>
    match searchYear none l.data with
    | some y => some y
    | none => extract_year ls

/-- A parsed `%b%d%Y` date: month number 1-12, day, and the four year
digits as written. -/
structure ParsedDate where
  month : Nat
  day : Nat
  year : String
deriving DecidableEq

/-- Try each month abbreviation as a Title-case prefix of `cs`; return the
1-based month number and the remaining characters. -/
def findMonthIdx : List String → Nat → List Char → Option (Nat × List Char)
  | [], _, _ => none
  | m :: ms, i, cs =>
    if isPre m.data cs then some (i, cs.drop m.data.length)
    else findMonthIdx ms (i + 1) cs

/-- Digits to a natural number (most significant first). -/
def digitsToNat (cs : List Char) : Nat :=
  cs.foldl (fun a c => 10 * a + (c.toNat - 48)) 0

/-- Gregorian leap year. -/
def isLeap (y : Nat) : Bool :=
  y % 4 = 0 && (!(y % 100 = 0) || y % 400 = 0)

/-- Days in a month of a given year. -/
def daysInMonth (m y : Nat) : Nat :=
  if m = 2 then (if isLeap y then 29 else 28)
  else if m = 4 || m = 6 || m = 9 || m = 11 then 30
  else 31

/-- The `%d%Y` tail of the strptime format: a 1-2 digit day (leading zero
allowed in the two-digit form, value 1-31) followed by exactly four year
digits and nothing else. -/
def parseDayYear (cs : List Char) : Option (Nat × String) :=
  if cs.all Char.isDigit then
    if cs.length = 6 then
      let d := digitsToNat (cs.take 2)
      if 1 ≤ d ∧ d ≤ 31 then some (d, String.mk (cs.drop 2)) else none
    else if cs.length = 5 then
      let d := digitsToNat (cs.take 1)
      if 1 ≤ d then some (d, String.mk (cs.drop 1)) else none
    else none
  else none

/-- Model of `pd.to_datetime(s, format='%b%d%Y')`: `none` is the
`ValueError` the caller catches.  The day is validated against the real
calendar, as pandas does. -/
def parseBDY (s : String) : Option ParsedDate :=
  match findMonthIdx months 1 s.data with
  | none => none
  | some (m, rest) =>
    match parseDayYear rest with
    | none => none
    | some (d, ys) =>
      if d ≤ daysInMonth m (digitsToNat ys.data) then some ⟨m, d, ys⟩ else none

/-- Two-digit zero-padded rendering (`%d`, `%m`). -/
def pad2 (n : Nat) : String :=
  String.mk [Char.ofNat (48 + n / 10 % 10), Char.ofNat (48 + n % 10)]

/-- `%b` for a 1-based month number. -/
def monthAbbrev (m : Nat) : String :=
  months.getD (m - 1) ""

/-- `.strftime('%b %d, %Y')` of the scripts copy. -/
def fmtHumanDate (d : ParsedDate) : String :=
  monthAbbrev d.month ++ " " ++ pad2 d.day ++ ", " ++ d.year

/-- `.strftime('%Y-%m-%d')` of the `DataProcessor` copy. -/
def fmtISODate (d : ParsedDate) : String :=
  d.year ++ "-" ++ pad2 d.month ++ "-" ++ pad2 d.day

/-- One extracted transaction: the 5-element list
`[date, description, withdrawal, deposit, balance]` appended by the code. -/
structure Transaction where
  date : String
  description : String
  withdrawal : Option String
  deposit : Option String
  balance : String
deriving DecidableEq

/-- The regex `^\d+(\.\d{1,2})?$` used to filter reference numbers out of
the description tokens. -/
def numericFilter (s : String) : Bool :=
  let ds := s.data.takeWhile Char.isDigit
  let rest := s.data.dropWhile Char.isDigit
  !ds.isEmpty &&
    (rest.isEmpty ||
      (match rest with
       | c :: es => c = '.' && !es.isEmpty && es.length ≤ 2 && es.all Char.isDigit
       | _ => false))

/-- Python slice `parts[1:-2]`. -/
def pySlice1ToNeg2 (l : List String) : List String :=
  ((l.drop 1).dropLast).dropLast

/-- Python `parts[-2]` as an `Option`. -/
def secondLast (l : List String) : Option String :=
  l.dropLast.getLast?

/-- Python `' '.join(l)`. -/
def joinSp : List String → String
  | [] => ""
  | [s] => s
  | s :: rest => s ++ " " ++ joinSp rest

/-- The tokenization of a transaction-starting line, shared verbatim by both
parser copies: `parts = line.split()`, delete the final token when it is
non-digit and alphabetic (`del parts[-1]`), then read `parts[0]` as the
partial date.  Both indexings can raise `IndexError`. -/
def tokenizeStart (line : String) : Except Err (List String × String) :=
  match (pySplit line).getLast? with
  | none => .error .indexError
  | some last0 =>
    let parts := if !(pyIsDigit last0) && pyIsAlpha last0
                 then (pySplit line).dropLast else pySplit line
    match parts.head? with
    | none => .error .indexError
    | some date0 => .ok (parts, date0)

/-- The tail of the start-line handling shared verbatim by both copies:
`balance = parts[-1]`; deposit-vs-withdrawal by membership of a
`DEPOSIT_TRIGS` tag in `parts`; amount `parts[-2]` (which can raise
`IndexError`); description from `parts[1:-2]` with pure-numeric tokens
filtered out, joined and word-segmented. -/
def finishStart (seg : String → String) (parts : List String) (date : String) :
    Except Err (Option Transaction) :=
  match parts.getLast? with
  | none => .error .indexError
  | some balance =>
    match secondLast parts with
    | none => .error .indexError
    | some amount =>
      let isDep := DEPOSIT_TRIGS.any (fun tag => parts.contains tag)
      let description :=
        seg (joinSp ((pySlice1ToNeg2 parts).filter (fun part => !numericFilter part)))
      .ok (some { date := date
                  description := description
                  withdrawal := if isDep then none else some amount
                  deposit := if isDep then some amount else none
                  balance := balance })

/-- Handling of one transaction-starting (stripped) line in
`extract_transactions_from_page`: tokenize; if `extracted_year` is truthy,
build `f"{date}{extracted_year}"`, parse it and render `'%b %d, %Y'`,
skipping the line (`continue`, i.e. `.ok none`) on `ValueError`; otherwise
keep the bare partial date.  Then finish the record. -/
def processStartLine (seg : String → String) (extracted_year : Option String)
    (line : String) : Except Err (Option Transaction) :=
  match tokenizeStart line with
  | .error e => .error e
  | .ok (parts, date0) =>
    if pyTruthyStr extracted_year then
      match (parseBDY (date0 ++ extracted_year.getD "")).map fmtHumanDate with
      | none => .ok none
      | some date => finishStart seg parts date
    else
      finishStart seg parts date0

/-- `transactions[-1][1] += ' ' + split_concatenated_text(line)`: mutate the
description of the last transaction. -/
def reflowLast (seg : String → String) (transactions : List Transaction)
    (line : String) : List Transaction :=
  match transactions.getLast? with
  | none => transactions
  | some t =>
    transactions.dropLast ++ [{ t with description := t.description ++ " " ++ seg line }]

/-- One iteration of the scripts copy's line loop: strip the line; a line
starting with a month abbreviation is a transaction start; otherwise
(`elif transactions:`) reflow into the last transaction when one exists,
else do nothing. -/
def stepLine (seg : String → String) (extracted_year : Option String)
    (transactions : List Transaction) (line : String) : Except Err (List Transaction) :=
  let l := pyStrip line
  if startsNewTx l then
    match processStartLine seg extracted_year l with
    | .error e => .error e
    | .ok none => .ok transactions
    | .ok (some t) => .ok (transactions ++ [t])
  else
    match transactions with
    | [] => .ok transactions
    | _ :: _ => .ok (reflowLast seg transactions l)

/-- The scripts copy's line loop over a page. -/
def pageLoop (seg : String → String) (extracted_year : Option String) :
    List String → List Transaction → Except Err (List Transaction)
  | [], transactions => .ok transactions
  | l :: ls, transactions =>
    match stepLine seg extracted_year transactions l with
    | .error e => .error e
    | .ok transactions' => pageLoop seg extracted_year ls transactions'

/-- `extract_transactions_from_page(lines, extracted_year)` from
`src/scripts/extract_transactions.py`, with the word segmenter abstract. -/
def extract_transactions_from_page (seg : String → String) (lines : List String)
    (extracted_year : Option String) : Except Err (List Transaction) :=
  pageLoop seg extracted_year lines []

/-- The page loop of `process_single_pdf`: pages are already-extracted line
lists; `if not extracted_year: extracted_year = extract_year(lines)`, then
extend the document list with the page's transactions.  The loop state
(resolved year, accumulated transactions) is returned. -/
def pdfLoop (seg : String → String) :
    List (List String) → Option String → List Transaction →
    Except Err (Option String × List Transaction)
  | [], y, acc => .ok (y, acc)
  | pg :: pgs, y, acc =>
    let y' := if pyTruthyStr y then y else extract_year pg
    match extract_transactions_from_page seg pg y' with
    | .error e => .error e
    | .ok txs => pdfLoop seg pgs y' (acc ++ txs)

/-- `process_single_pdf` on the materialized page texts: year starts
unresolved and the document transaction list starts empty. -/
def process_single_pdf (seg : String → String) (pages : List (List String)) :
    Except Err (Option String × List Transaction) :=
  pdfLoop seg pages none []

/-- The page loop with the year held fixed at an already-resolved value:
every page is parsed with the same year and the results concatenated.  Used
to state that year resolution is first-wins (claim C7). -/
def pdfLoopFixed (seg : String → String) (y : String) :
    List (List String) → List Transaction → Except Err (List Transaction)
  | [], acc => .ok acc
  | pg :: pgs, acc =>
    match extract_transactions_from_page seg pg (some y) with
    | .error e => .error e
    | .ok txs => pdfLoopFixed seg y pgs (acc ++ txs)

/-- Identity word segmenter, standing in for `wordninja` on concrete runs. -/
def idSeg : String → String := fun s => s

namespace DataProcessor

/-- `DataProcessor.extract_transactions`' handling of one transaction-starting
line, from `src/core/data_preprocessor.py`: identical to the scripts copy
except that the parsed date is rendered with `.strftime('%Y-%m-%d')`. -/
def processStartLine (seg : String → String) (extracted_year : Option String)
    (line : String) : Except Err (Option Transaction) :=
  match tokenizeStart line with
  | .error e => .error e
  | .ok (parts, date0) =>
    if pyTruthyStr extracted_year then
      match (parseBDY (date0 ++ extracted_year.getD "")).map fmtISODate with
      | none => .ok none
      | some date => finishStart seg parts date
    else
      finishStart seg parts date0

/-- One iteration of the `DataProcessor` copy's line loop. -/
def stepLine (seg : String → String) (extracted_year : Option String)
    (transactions : List Transaction) (line : String) : Except Err (List Transaction) :=
  let l := pyStrip line
  if startsNewTx l then
    match processStartLine seg extracted_year l with
    | .error e => .error e
    | .ok none => .ok transactions
    | .ok (some t) => .ok (transactions ++ [t])
  else
    match transactions with
    | [] => .ok transactions
    | _ :: _ => .ok (reflowLast seg transactions l)

/-- The `DataProcessor` copy's line loop over a page. -/
def pageLoop (seg : String → String) (extracted_year : Option String) :
    List String → List Transaction → Except Err (List Transaction)
  | [], transactions => .ok transactions
  | l :: ls, transactions =>
    match stepLine seg extracted_year transactions l with
    | .error e => .error e
    | .ok transactions' => pageLoop seg extracted_year ls transactions'

/-- `DataProcessor.extract_transactions(lines, extracted_year)` from
`src/core/data_preprocessor.py`. -/
def extract_transactions (seg : String → String) (lines : List String)
    (extracted_year : Option String) : Except Err (List Transaction) :=
  pageLoop seg extracted_year lines []

end DataProcessor

/-- Two transactions that agree on every field except possibly the date,
whose two values (when they differ) are the human-readable and ISO
renderings of one underlying parsed date. -/
def AgreeExceptDate (t u : Transaction) : Prop :=
  t.description = u.description ∧ t.withdrawal = u.withdrawal ∧
  t.deposit = u.deposit ∧ t.balance = u.balance ∧
  (t.date = u.date ∨ ∃ d : ParsedDate, t.date = fmtHumanDate d ∧ u.date = fmtISODate d)

/-- Lift `AgreeExceptDate` to the `Except`-valued result of one start line. -/
def AgreeOptRes : Except Err (Option Transaction) → Except Err (Option Transaction) → Prop
  | .ok (some t), .ok (some u) => AgreeExceptDate t u
  | .ok none, .ok none => True
  | .error e, .error f => e = f
  | _, _ => False

/-- Lift `AgreeExceptDate` elementwise to the `Except`-valued result of a
whole page. -/
def AgreeRes : Except Err (List Transaction) → Except Err (List Transaction) → Prop
  | .ok a, .ok b => List.Forall₂ AgreeExceptDate a b
  | .error e, .error f => e = f
  | _, _ => False

/-! ### Helper lemmas -/

theorem reflowLast_concat (seg : String → String) (l : String)
    (ts : List Transaction) (t : Transaction) :
    reflowLast seg (ts ++ [t]) l =
      ts ++ [{ t with description := t.description ++ " " ++ seg l }] := by
  unfold reflowLast
  rw [List.getLast?_concat, List.dropLast_concat]

theorem reflowLast_cons (seg : String → String) (l : String) (a : Transaction)
    {as : List Transaction} (h : as ≠ []) :
    reflowLast seg (a :: as) l = a :: reflowLast seg as l := by
  obtain ⟨bs, b, rfl⟩ := (List.eq_nil_or_concat as).resolve_left h
  simp only [List.concat_eq_append]
  rw [show a :: (bs ++ [b]) = (a :: bs) ++ [b] from rfl, reflowLast_concat,
    reflowLast_concat]
  rfl

theorem finishStart_rel (seg : String → String) (parts : List String) (d1 d2 : String)
    (h : d1 = d2 ∨ ∃ d : ParsedDate, d1 = fmtHumanDate d ∧ d2 = fmtISODate d) :
    AgreeOptRes (finishStart seg parts d1) (finishStart seg parts d2) := by
  unfold finishStart
  cases parts.getLast? with
  | none => exact rfl
  | some balance =>
    cases secondLast parts with
    | none => exact rfl
    | some amount => exact ⟨rfl, rfl, rfl, rfl, h⟩

theorem processStart_agree (seg : String → String) (y : Option String) (l : String) :
    AgreeOptRes (processStartLine seg y l) (DataProcessor.processStartLine seg y l) := by
  unfold processStartLine DataProcessor.processStartLine
  cases tokenizeStart l with
  | error e => exact rfl
  | ok pd =>
    obtain ⟨parts, date0⟩ := pd
    dsimp only
    by_cases hy : pyTruthyStr y = true
    · rw [if_pos hy, if_pos hy]
      cases parseBDY (date0 ++ y.getD "") with
      | none => exact trivial
      | some d => exact finishStart_rel seg parts _ _ (Or.inr ⟨d, rfl, rfl⟩)
    · rw [if_neg hy, if_neg hy]
      exact finishStart_rel seg parts _ _ (Or.inl rfl)

theorem reflow_agree (seg : String → String) (l : String) :
    ∀ {txs txsC : List Transaction}, List.Forall₂ AgreeExceptDate txs txsC →
      List.Forall₂ AgreeExceptDate (reflowLast seg txs l) (reflowLast seg txsC l) := by
  intro txs txsC h
  induction h with
  | nil => exact List.Forall₂.nil
  | @cons a b as bs h1 h2 ih =>
    cases h2 with
    | nil =>
      have ha : reflowLast seg [a] l =
          [{ a with description := a.description ++ " " ++ seg l }] :=
        reflowLast_concat seg l [] a
      have hb : reflowLast seg [b] l =
          [{ b with description := b.description ++ " " ++ seg l }] :=
        reflowLast_concat seg l [] b
      rw [ha, hb]
      exact List.Forall₂.cons
        ⟨by rw [h1.1], h1.2.1, h1.2.2.1, h1.2.2.2.1, h1.2.2.2.2⟩ List.Forall₂.nil
    | @cons a' b' as' bs' h1' h2' =>
      rw [reflowLast_cons seg l a (by simp), reflowLast_cons seg l b (by simp)]
      exact List.Forall₂.cons h1 ih

theorem stepLine_agree (seg : String → String) (y : Option String) (l : String)
    {txs txsC : List Transaction} (h : List.Forall₂ AgreeExceptDate txs txsC) :
    AgreeRes (stepLine seg y txs l) (DataProcessor.stepLine seg y txsC l) := by
  unfold stepLine DataProcessor.stepLine
  by_cases hs : startsNewTx (pyStrip l) = true
  · rw [if_pos hs, if_pos hs]
    have hp := processStart_agree seg y (pyStrip l)
    generalize hA : processStartLine seg y (pyStrip l) = r1 at hp ⊢
    generalize hB : DataProcessor.processStartLine seg y (pyStrip l) = r2 at hp ⊢
    cases r1 with
    | error e1 =>
      cases r2 with
      | error e2 => exact hp
      | ok v2 => exact hp.elim
    | ok v1 =>
      cases r2 with
      | error e2 => cases v1 <;> exact hp.elim
      | ok v2 =>
        cases v1 with
        | none =>
          cases v2 with
          | none => exact h
          | some u => exact hp.elim
        | some t =>
          cases v2 with
          | none => exact hp.elim
          | some u =>
            exact List.rel_append h (List.Forall₂.cons hp List.Forall₂.nil)
  · rw [if_neg hs, if_neg hs]
    cases h with
    | nil => exact List.Forall₂.nil
    | @cons a b as bs h1 h2 =>
      exact reflow_agree seg (pyStrip l) (List.Forall₂.cons h1 h2)

theorem pageLoop_agree (seg : String → String) (y : Option String) (lines : List String) :
    ∀ {txs txsC : List Transaction}, List.Forall₂ AgreeExceptDate txs txsC →
      AgreeRes (pageLoop seg y lines txs) (DataProcessor.pageLoop seg y lines txsC) := by
  induction lines with
  | nil => intro txs txsC h; exact h
  | cons l ls ih =>
    intro txs txsC h
    have hs := stepLine_agree seg y l h
    unfold pageLoop DataProcessor.pageLoop
    generalize hA : stepLine seg y txs l = r1 at hs ⊢
    generalize hB : DataProcessor.stepLine seg y txsC l = r2 at hs ⊢
    cases r1 with
    | error e1 =>
      cases r2 with
      | error e2 => exact hs
      | ok b => exact hs.elim
    | ok a =>
      cases r2 with
      | error e2 => exact hs.elim
      | ok b => exact ih hs

theorem wordsAux_mem_ne_nil :
    ∀ (cs cur : List Char), ∀ w ∈ wordsAux cs cur, w ≠ [] := by
  intro cs
  induction cs with
  | nil =>
    intro cur w hw
    unfold wordsAux at hw
    by_cases hc : cur = []
    · simp [hc] at hw
    · rw [if_neg hc] at hw
      rcases List.mem_singleton.mp hw with rfl
      simpa [List.reverse_eq_nil_iff] using hc
  | cons c cs ih =>
    intro cur w hw
    unfold wordsAux at hw
    split at hw
    · by_cases hc : cur = []
      · rw [if_pos hc] at hw
        exact ih [] w hw
      · rw [if_neg hc] at hw
        rcases List.mem_cons.mp hw with rfl | h
        · simpa [List.reverse_eq_nil_iff] using hc
        · exact ih [] w h
    · exact ih (c :: cur) w hw

theorem pySplit_mem_ne_empty (s : String) : ∀ w ∈ pySplit s, w ≠ "" := by
  intro w hw
  unfold pySplit at hw
  rcases List.mem_map.mp hw with ⟨cs, hcs, rfl⟩
  have hne := wordsAux_mem_ne_nil s.data [] cs hcs
  intro h
  exact hne (congrArg String.data h)

theorem finishStart_inv (seg : String → String) (parts : List String) (date : String)
    (t : Transaction) (h : finishStart seg parts date = .ok (some t)) :
    ∃ balance amount, parts.getLast? = some balance ∧ secondLast parts = some amount ∧
      t = { date := date
            description :=
              seg (joinSp ((pySlice1ToNeg2 parts).filter (fun part => !numericFilter part)))
            withdrawal :=
              if DEPOSIT_TRIGS.any (fun tag => parts.contains tag) then none else some amount
            deposit :=
              if DEPOSIT_TRIGS.any (fun tag => parts.contains tag) then some amount else none
            balance := balance } := by
  unfold finishStart at h
  cases hb : parts.getLast? with
  | none => rw [hb] at h; cases h
  | some balance =>
    rw [hb] at h
    cases ha : secondLast parts with
    | none => rw [ha] at h; cases h
    | some amount =>
      rw [ha] at h
      refine ⟨balance, amount, rfl, rfl, ?_⟩
      dsimp only at h
      exact (Option.some.inj (Except.ok.inj h)).symm

theorem finishStart_ok_of_len (seg : String → String) (parts : List String)
    (date : String) (h2 : 2 ≤ parts.length) :
    ∃ t : Transaction, finishStart seg parts date = .ok (some t) ∧ t.date = date := by
  have hne : parts ≠ [] := by
    intro h; rw [h] at h2; simp at h2
  obtain ⟨balance, hb⟩ : ∃ b, parts.getLast? = some b := by
    cases hg : parts.getLast? with
    | none => exact absurd (List.getLast?_eq_none_iff.mp hg) hne
    | some b => exact ⟨b, rfl⟩
  have hdne : parts.dropLast ≠ [] := by
    intro hd
    have := congrArg List.length hd
    simp [List.length_dropLast] at this
    omega
  obtain ⟨amount, ha⟩ : ∃ a, secondLast parts = some a := by
    cases hg : parts.dropLast.getLast? with
    | none => exact absurd (List.getLast?_eq_none_iff.mp hg) hdne
    | some a => exact ⟨a, hg⟩
  refine ⟨{ date := date
            description :=
              seg (joinSp ((pySlice1ToNeg2 parts).filter (fun part => !numericFilter part)))
            withdrawal :=
              if DEPOSIT_TRIGS.any (fun tag => parts.contains tag) then none else some amount
            deposit :=
              if DEPOSIT_TRIGS.any (fun tag => parts.contains tag) then some amount else none
            balance := balance }, ?_, rfl⟩
  unfold finishStart
  rw [hb, ha]

theorem mem_of_getLast?_eq {α : Type} (l : List α) (a : α) (h : l.getLast? = some a) :
    a ∈ l := by
  have heq := List.dropLast_append_getLast? a (Option.mem_def.mpr h)
  rw [← heq]
  exact List.mem_append_right _ (List.mem_singleton_self a)

theorem tokenizeStart_inv (l : String) (parts : List String) (date0 : String)
    (h : tokenizeStart l = .ok (parts, date0)) :
    ∃ last0, (pySplit l).getLast? = some last0 ∧
      parts = (if !(pyIsDigit last0) && pyIsAlpha last0 then (pySplit l).dropLast
               else pySplit l) ∧
      parts.head? = some date0 := by
  unfold tokenizeStart at h
  cases hg : (pySplit l).getLast? with
  | none => rw [hg] at h; simp at h
  | some last0 =>
    rw [hg] at h
    dsimp only at h
    refine ⟨last0, rfl, ?_⟩
    cases hh : (if !(pyIsDigit last0) && pyIsAlpha last0 then (pySplit l).dropLast
                else pySplit l).head? with
    | none => rw [hh] at h; simp at h
    | some d =>
      rw [hh] at h
      dsimp only at h
      injection h with h1
      injection h1 with hp hd
      subst hp
      subst hd
      exact ⟨rfl, hh⟩

theorem processStartLine_ok_cases (seg : String → String) (y : Option String)
    (l : String) (t : Transaction) (h : processStartLine seg y l = .ok (some t)) :
    ∃ parts date0 date, tokenizeStart l = .ok (parts, date0) ∧
      finishStart seg parts date = .ok (some t) := by
  unfold processStartLine at h
  cases htok : tokenizeStart l with
  | error e => rw [htok] at h; simp at h
  | ok pd =>
    obtain ⟨parts, date0⟩ := pd
    rw [htok] at h
    dsimp only at h
    by_cases hy : pyTruthyStr y = true
    · rw [if_pos hy] at h
      cases hp : (parseBDY (date0 ++ y.getD "")).map fmtHumanDate with
      | none => rw [hp] at h; simp at h
      | some date => rw [hp] at h; exact ⟨parts, date0, date, rfl, h⟩
    · rw [if_neg hy] at h
      exact ⟨parts, date0, date0, rfl, h⟩

theorem parts_subset_pySplit (l : String) (parts : List String) (date0 : String)
    (h : tokenizeStart l = .ok (parts, date0)) : ∀ w ∈ parts, w ∈ pySplit l := by
  obtain ⟨last0, -, hp, -⟩ := tokenizeStart_inv l parts date0 h
  intro w hw
  rw [hp] at hw
  by_cases hc : (!(pyIsDigit last0) && pyIsAlpha last0) = true
  · rw [if_pos hc] at hw
    exact (List.dropLast_sublist (pySplit l)).subset hw
  · rw [if_neg hc] at hw
    exact hw

theorem takeWhile_all_append (p : Char → Bool) :
    ∀ (ds rest : List Char), (∀ c ∈ ds, p c = true) →
      (rest = [] ∨ ∃ c cs, rest = c :: cs ∧ p c = false) →
      (ds ++ rest).takeWhile p = ds ∧ (ds ++ rest).dropWhile p = rest := by
  intro ds
  induction ds with
  | nil =>
    intro rest _ hr
    rcases hr with rfl | ⟨c, cs, rfl, hc⟩
    · exact ⟨rfl, rfl⟩
    · simp [List.takeWhile_cons, List.dropWhile_cons, hc]
  | cons d ds ih =>
    intro rest h hr
    have hd : p d = true := h d (List.mem_cons_self d ds)
    have hds : ∀ c ∈ ds, p c = true := fun c hc => h c (List.mem_cons_of_mem d hc)
    have := ih rest hds hr
    simp [List.takeWhile_cons, List.dropWhile_cons, hd, this.1, this.2]

theorem numericFilter_iff (s : String) :
    numericFilter s = true ↔
      ∃ ds es : List Char, s.data = ds ++ es ∧ ds ≠ [] ∧ (∀ c ∈ ds, c.isDigit = true) ∧
        (es = [] ∨ ∃ fs, es = '.' :: fs ∧ fs ≠ [] ∧ fs.length ≤ 2 ∧
          ∀ c ∈ fs, c.isDigit = true) := by
  constructor
  · intro h
    unfold numericFilter at h
    rw [Bool.and_eq_true] at h
    obtain ⟨h1, h2⟩ := h
    refine ⟨s.data.takeWhile Char.isDigit, s.data.dropWhile Char.isDigit,
      (List.takeWhile_append_dropWhile Char.isDigit s.data).symm, ?_, ?_, ?_⟩
    · intro he
      rw [he] at h1
      simp at h1
    · intro c hc
      exact List.mem_takeWhile_imp hc
    · cases hr : s.data.dropWhile Char.isDigit with
      | nil => exact Or.inl rfl
      | cons r rs =>
        rw [hr] at h2
        rcases Bool.or_eq_true_iff.mp h2 with h3 | h3
        · simp at h3
        · dsimp only at h3
          rw [Bool.and_eq_true, Bool.and_eq_true, Bool.and_eq_true] at h3
          obtain ⟨⟨⟨hc1, hc2⟩, hc3⟩, hc4⟩ := h3
          obtain rfl : r = '.' := by simpa using hc1
          refine Or.inr ⟨rs, rfl, ?_, ?_, ?_⟩
          · intro he
            rw [he] at hc2
            simp at hc2
          · simpa using hc3
          · intro c hc
            exact List.all_eq_true.mp hc4 c hc
  · rintro ⟨ds, es, hsplit, hne, hdig, hcase⟩
    unfold numericFilter
    rcases hcase with rfl | ⟨fs, rfl, hfne, hflen, hfdig⟩
    · have hta := takeWhile_all_append Char.isDigit ds [] hdig (Or.inl rfl)
      rw [hsplit, hta.1, hta.2]
      simp [List.isEmpty_iff, hne]
    · have hta := takeWhile_all_append Char.isDigit ds ('.' :: fs) hdig
        (Or.inr ⟨'.', fs, rfl, by decide⟩)
      rw [hsplit, hta.1, hta.2]
      simp [List.isEmpty_iff, hne, hfne, hflen, List.all_eq_true]
      exact fun c hc => hfdig c hc

theorem isAlpha_isDigit_false (c : Char) (h : c.isAlpha = true) : c.isDigit = false := by
  simp [Char.isAlpha, Char.isUpper, Char.isLower, Char.isDigit] at *
  intro _
  rcases h with ⟨h3, -⟩ | ⟨h3, -⟩
  · have h3n : 65 ≤ c.val.toNat := h3
    show (57 : UInt32).toNat < c.val.toNat
    have h57 : (57 : UInt32).toNat = 57 := rfl
    rw [h57]
    omega
  · have h3n : 97 ≤ c.val.toNat := h3
    show (57 : UInt32).toNat < c.val.toNat
    have h57 : (57 : UInt32).toNat = 57 := rfl
    rw [h57]
    omega

theorem del_cond_eq_isAlpha (w : String) :
    (!(pyIsDigit w) && pyIsAlpha w) = pyIsAlpha w := by
  cases ha : pyIsAlpha w with
  | false => simp
  | true =>
    have hdig : pyIsDigit w = false := by
      unfold pyIsAlpha at ha
      unfold pyIsDigit
      rw [Bool.and_eq_true] at ha
      obtain ⟨h1, h2⟩ := ha
      cases hd : w.data with
      | nil => rw [hd] at h1; simp at h1
      | cons c cs =>
        rw [hd] at h2
        have hca : c.isAlpha = true := by
          rw [List.all_cons, Bool.and_eq_true] at h2
          exact h2.1
        simp [List.all_cons, isAlpha_isDigit_false c hca]
    rw [hdig]
    simp

theorem stepLine_reflow (seg : String → String) (y : Option String) (line : String)
    (hns : startsNewTx (pyStrip line) = false) (ts : List Transaction) (t : Transaction) :
    stepLine seg y (ts ++ [t]) line =
      .ok (ts ++ [{ t with description := t.description ++ " " ++ seg (pyStrip line) }]) := by
  have h1 : stepLine seg y (ts ++ [t]) line =
      .ok (reflowLast seg (ts ++ [t]) (pyStrip line)) := by
    simp only [stepLine, hns]
    cases hx : ts ++ [t] <;> rfl
  rw [h1, reflowLast_concat]

/-! ### The claims -/

/-- Claim C1 counterexample: a transaction-starting line processed with no
resolved year is NOT rejected — the parser appends a transaction whose date
is the bare partial date token, so a year-less document does not yield an
empty transaction list. -/
theorem c1_counterexample :
    extract_transactions_from_page idSeg ["Jan15 Shop 4.50 995.50"] none =
      .ok [Transaction.mk "Jan15" "Shop" (some "4.50") none "995.50"] := rfl

/-- Claim C1 (amended): while the year is unresolved, a transaction-starting
line whose prepared token list has at least two tokens is not rejected: the
date-parse step is skipped entirely and exactly one transaction is appended,
its date being the bare partial date token.  Only a resolved year can make a
line fail date parsing and be dropped. -/
theorem c1_no_year_still_emits (seg : String → String) (txs : List Transaction)
    (line : String) (parts : List String) (date0 : String)
    (hstart : startsNewTx (pyStrip line) = true)
    (htok : tokenizeStart (pyStrip line) = .ok (parts, date0))
    (hlen : 2 ≤ parts.length) :
    ∃ t : Transaction, stepLine seg none txs line = .ok (txs ++ [t]) ∧ t.date = date0 := by
  obtain ⟨t, hfin, hdate⟩ := finishStart_ok_of_len seg parts date0 hlen
  refine ⟨t, ?_, hdate⟩
  have hps : processStartLine seg none (pyStrip line) = .ok (some t) := by
    unfold processStartLine
    rw [htok]
    exact hfin
  simp only [stepLine]
  rw [hstart, hps]
  rfl

/-- Claim C1 witness: the amended claim at a concrete no-year start line. -/
theorem c1_no_year_still_emits_witness :
    ∃ t : Transaction, stepLine idSeg none [] "Jan15 Shop 4.50 995.50" = .ok ([] ++ [t]) ∧
      t.date = "Jan15" :=
  c1_no_year_still_emits idSeg [] "Jan15 Shop 4.50 995.50"
    ["Jan15", "Shop", "4.50", "995.50"] "Jan15" (by decide) rfl (by decide)

/-- Claim C2 counterexample: the classifier tests `line.startswith(month)`,
not first-token equality, so the line "Mayflower Hotel 1.00 2.00" — whose
first token "Mayflower" is not a month abbreviation — is classified as a
transaction start and (with no year resolved) even yields a transaction. -/
theorem c2_counterexample :
    startsNewTx "Mayflower Hotel 1.00 2.00" = true ∧
    (pySplit "Mayflower Hotel 1.00 2.00").head? = some "Mayflower" ∧
    months.contains "Mayflower" = false ∧
    extract_transactions_from_page idSeg ["Mayflower Hotel 1.00 2.00"] none =
      .ok [Transaction.mk "Mayflower" "Hotel" (some "1.00") none "2.00"] :=
  ⟨by decide, by decide, by decide, rfl⟩

/-- Claim C2 (amended): a trimmed line is classified as starting a new
transaction iff one of the twelve month abbreviations is a PREFIX of the
line (`line.startswith(month)`), not iff its first whitespace token equals
an abbreviation; in particular "Mayhem 9.99 100.00" is classified as a
transaction start although its first token is not a month abbreviation. -/
theorem c2_start_is_startswith_month :
    (∀ l : String, startsNewTx l = true ↔ ∃ m, m ∈ months ∧ pyStartsWith l m = true) ∧
    (startsNewTx "Mayhem 9.99 100.00" = true ∧ months.contains "Mayhem" = false) := by
  refine ⟨fun l => ?_, by decide, by decide⟩
  simp [startsNewTx, List.any_eq_true]

/-- Claim C3 counterexample: on the spec's exact three input lines the
parser resolves the year 2024 but emits NO transaction at all: the date
token of line 2 is just "Jan" (the day "15" is a separate token), the date
candidate "Jan2024" fails to parse `%b%d%Y`, and the line is dropped, so
line 3 has nothing to extend. -/
theorem c3_counterexample :
    process_single_pdf idSeg
      [["STATEMENT 2024", "Jan 15 GroceryStoreXYZ Deposit 50.00 1200.00",
        "  additional note text"]] = .ok (some "2024", []) := rfl

/-- Claim C3 (amended): with the partial date written as the single token
"Jan15" (month and day concatenated, as the parser's date grammar expects),
the scenario holds: the year 2024 is resolved from line 1, line 2 emits one
transaction with date "Jan 15, 2024", deposit "50.00", withdrawal absent,
balance "1200.00" and the word-segmented description, and line 3 appends a
space plus its segmented text to that description. -/
theorem c3_scenario_concatenated_date (seg : String → String) :
    process_single_pdf seg
      [["STATEMENT 2024", "Jan15 GroceryStoreXYZ Deposit 50.00 1200.00",
        "  additional note text"]] =
      .ok (some "2024",
        [Transaction.mk "Jan 15, 2024"
          (seg "GroceryStoreXYZ Deposit" ++ " " ++ seg "additional note text")
          none (some "50.00") "1200.00"]) := rfl

/-- Claim C4 counterexample: a line whose only deposit marker is the final
token is NOT classified as a deposit: the trailing alphabetic token
"Deposit" is deleted before the marker-membership test, so the amount is
recorded as a withdrawal. -/
theorem c4_counterexample :
    extract_transactions_from_page idSeg ["Jan15 Shop 50.00 1200.00 Deposit"] (some "2024") =
      .ok [Transaction.mk "Jan 15, 2024" "Shop" (some "50.00") none "1200.00"] := rfl

/-- Claim C4 (amended): a transaction is deposit-classified iff a deposit
marker occurs among the tokens that remain AFTER the trailing alphabetic
token (if any) has been deleted; a marker that is the line's final
alphabetic token is removed before the test and the transaction becomes a
withdrawal. -/
theorem c4_deposit_iff_marker_after_del (seg : String → String) (y : Option String)
    (l : String) (parts : List String) (date0 : String) (t : Transaction)
    (htok : tokenizeStart l = .ok (parts, date0))
    (h : processStartLine seg y l = .ok (some t)) :
    t.deposit.isSome = DEPOSIT_TRIGS.any (fun tag => parts.contains tag) ∧
    t.withdrawal.isSome = !(DEPOSIT_TRIGS.any (fun tag => parts.contains tag)) := by
  obtain ⟨parts', date0', date, htok', hfin⟩ := processStartLine_ok_cases seg y l t h
  rw [htok] at htok'
  injection htok' with h1
  injection h1 with hp hd
  subst hp
  obtain ⟨balance, amount, hb, ha, rfl⟩ := finishStart_inv seg parts date t hfin
  by_cases hdep : DEPOSIT_TRIGS.any (fun tag => parts.contains tag) = true
  · rw [hdep]
    exact ⟨rfl, rfl⟩
  · simp only [Bool.not_eq_true] at hdep
    rw [hdep]
    exact ⟨rfl, rfl⟩

/-- Claim C4 witness: the amended claim at the concrete trailing-marker
line, where the marker is deleted and the result is a withdrawal. -/
theorem c4_deposit_iff_marker_after_del_witness :
    (Transaction.mk "Jan 15, 2024" "Shop" (some "50.00") none "1200.00").deposit.isSome =
      DEPOSIT_TRIGS.any (fun tag =>
        (["Jan15", "Shop", "50.00", "1200.00"] : List String).contains tag) ∧
    (Transaction.mk "Jan 15, 2024" "Shop" (some "50.00") none "1200.00").withdrawal.isSome =
      !(DEPOSIT_TRIGS.any (fun tag =>
        (["Jan15", "Shop", "50.00", "1200.00"] : List String).contains tag)) :=
  c4_deposit_iff_marker_after_del idSeg (some "2024") "Jan15 Shop 50.00 1200.00 Deposit"
    ["Jan15", "Shop", "50.00", "1200.00"] "Jan15"
    (Transaction.mk "Jan 15, 2024" "Shop" (some "50.00") none "1200.00") rfl rfl

/-- Claim C5 (confirmed): every transaction emitted from a start line with a
resolved year (hence a successfully parsed month/day) has exactly one of
withdrawal/deposit populated — never both, never neither — and its balance
field holds a non-empty token. -/
theorem c5_exactly_one_amount (seg : String → String) (y : String) (l : String)
    (t : Transaction) (h : processStartLine seg (some y) l = .ok (some t)) :
    ((t.withdrawal.isSome = true ∧ t.deposit = none) ∨
     (t.deposit.isSome = true ∧ t.withdrawal = none)) ∧ t.balance ≠ "" := by
  obtain ⟨parts, date0, date, htok, hfin⟩ := processStartLine_ok_cases seg (some y) l t h
  obtain ⟨balance, amount, hb, ha, rfl⟩ := finishStart_inv seg parts date t hfin
  constructor
  · by_cases hdep : DEPOSIT_TRIGS.any (fun tag => parts.contains tag) = true
    · right
      rw [hdep]
      exact ⟨rfl, rfl⟩
    · simp only [Bool.not_eq_true] at hdep
      left
      rw [hdep]
      exact ⟨rfl, rfl⟩
  · have hmem : balance ∈ parts := mem_of_getLast?_eq parts balance hb
    have hsp : balance ∈ pySplit l := parts_subset_pySplit l parts date0 htok balance hmem
    exact pySplit_mem_ne_empty l balance hsp

/-- Claim C5 witness: the invariant at a concrete withdrawal line. -/
theorem c5_exactly_one_amount_witness :
    (((Transaction.mk "Jan 15, 2024" "Shop" (some "4.50") none "995.50").withdrawal.isSome = true ∧
      (Transaction.mk "Jan 15, 2024" "Shop" (some "4.50") none "995.50").deposit = none) ∨
     ((Transaction.mk "Jan 15, 2024" "Shop" (some "4.50") none "995.50").deposit.isSome = true ∧
      (Transaction.mk "Jan 15, 2024" "Shop" (some "4.50") none "995.50").withdrawal = none)) ∧
    (Transaction.mk "Jan 15, 2024" "Shop" (some "4.50") none "995.50").balance ≠ "" :=
  c5_exactly_one_amount idSeg "2024" "Jan15 Shop 4.50 995.50"
    (Transaction.mk "Jan 15, 2024" "Shop" (some "4.50") none "995.50") rfl

/-- Claim C6 counterexample: reflow scope is the current PAGE's extraction
call, not the document: a continuation line opening page 2 is discarded
even though the document already holds a transaction from page 1, whose
description stays "Shop" instead of being extended. -/
theorem c6_counterexample :
    process_single_pdf idSeg [["Jan15 Shop 4.50 995.50"], ["orphan note"]] =
      .ok (none, [Transaction.mk "Jan15" "Shop" (some "4.50") none "995.50"]) ∧
    "Shop" ≠ "Shop" ++ " " ++ idSeg "orphan note" :=
  ⟨rfl, by decide⟩

/-- Claim C6 (amended): within one extraction call (one page), a non-empty
continuation line appends exactly one space plus the segmented line text to
the last transaction's description, creates no transaction and leaves all
other transactions and fields unchanged; before any transaction exists in
the CURRENT call's list it has no effect — even when earlier pages of the
document already produced transactions. -/
theorem c6_reflow_frame (seg : String → String) (y : Option String) (line : String)
    (hns : startsNewTx (pyStrip line) = false) (hne : pyStrip line ≠ "") :
    (stepLine seg y [] line = .ok []) ∧
    ∀ (ts : List Transaction) (t : Transaction),
      stepLine seg y (ts ++ [t]) line =
        .ok (ts ++ [{ t with description := t.description ++ " " ++ seg (pyStrip line) }]) := by
  constructor
  · simp only [stepLine, hns]
    rfl
  · exact fun ts t => stepLine_reflow seg y line hns ts t

/-- Claim C6 witness: the amended claim at a concrete continuation line. -/
theorem c6_reflow_frame_witness :
    stepLine idSeg none ([] ++ [Transaction.mk "Jan15" "Shop" (some "4.50") none "995.50"])
        "extra note" =
      .ok ([] ++ [{ Transaction.mk "Jan15" "Shop" (some "4.50") none "995.50" with
        description := (Transaction.mk "Jan15" "Shop" (some "4.50") none "995.50").description
          ++ " " ++ idSeg (pyStrip "extra note") }]) :=
  (c6_reflow_frame idSeg none "extra note" (by decide) (by decide)).2 []
    (Transaction.mk "Jan15" "Shop" (some "4.50") none "995.50")

/-- Claim C7 (confirmed): once the document loop holds a resolved (truthy)
year, no later page changes it: running the remaining pages is exactly
running every one of them with that same first-found year, and the loop
ends with the year unchanged — even if a later page contains a different
4-digit number. -/
theorem c7_year_first_wins (seg : String → String) (ys : String) (hy : ys ≠ "") :
    ∀ (pgs : List (List String)) (acc : List Transaction),
      pdfLoop seg pgs (some ys) acc =
        (pdfLoopFixed seg ys pgs acc).map (fun txs => (some ys, txs)) := by
  intro pgs
  induction pgs with
  | nil => intro acc; rfl
  | cons pg pgs ih =>
    intro acc
    have htr : pyTruthyStr (some ys) = true := by
      show (if ys = "" then false else true) = true
      rw [if_neg hy]
    simp only [pdfLoop, pdfLoopFixed, htr, if_true]
    cases hx : extract_transactions_from_page seg pg (some ys) with
    | error e => rfl
    | ok txs => exact ih (acc ++ txs)

/-- Claim C7 witness: the first-wins law at concrete pages, the second of
which contains the different 4-digit number 2019. -/
theorem c7_year_first_wins_witness :
    pdfLoop idSeg [["Feb10 Cafe 3.25 900.00"], ["Report 2019"]] (some "2024") [] =
      (pdfLoopFixed idSeg "2024" [["Feb10 Cafe 3.25 900.00"], ["Report 2019"]] []).map
        (fun txs => (some "2024", txs)) :=
  c7_year_first_wins idSeg "2024" (by decide) [["Feb10 Cafe 3.25 900.00"], ["Report 2019"]] []

/-- Claim C8 (confirmed): tokenization splits on whitespace and discards the
final token exactly when it is alphabetic; the emitted description is the
segmented join of `parts[1:-2]` with exactly the numeric-filter tokens
removed; the spec's example filters to ["Payment", "to", "Acme"]; and a
token matches the numeric filter iff it is one or more digits optionally
followed by a decimal point and one or two digits. -/
theorem c8_token_prep_and_numeric_filter :
    (∀ (l : String) (w : String) (parts : List String) (date0 : String),
        (pySplit l).getLast? = some w → tokenizeStart l = .ok (parts, date0) →
        parts = if pyIsAlpha w then (pySplit l).dropLast else pySplit l) ∧
    (∀ (seg : String → String) (y : Option String) (l : String) (parts : List String)
        (date0 : String) (t : Transaction),
        tokenizeStart l = .ok (parts, date0) → processStartLine seg y l = .ok (some t) →
        t.description =
          seg (joinSp ((pySlice1ToNeg2 parts).filter (fun part => !numericFilter part)))) ∧
    ((["Payment", "123", "to", "45.00", "Acme"] : List String).filter
        (fun part => !numericFilter part) = ["Payment", "to", "Acme"]) ∧
    (∀ s : String, numericFilter s = true ↔
      ∃ ds es : List Char, s.data = ds ++ es ∧ ds ≠ [] ∧ (∀ c ∈ ds, c.isDigit = true) ∧
        (es = [] ∨ ∃ fs, es = '.' :: fs ∧ fs ≠ [] ∧ fs.length ≤ 2 ∧
          ∀ c ∈ fs, c.isDigit = true)) := by
  refine ⟨?_, ?_, by decide, numericFilter_iff⟩
  · intro l w parts date0 hw htok
    obtain ⟨last0, hg, hp, -⟩ := tokenizeStart_inv l parts date0 htok
    rw [hw] at hg
    injection hg with hlw
    subst hlw
    rw [hp, del_cond_eq_isAlpha]
  · intro seg y l parts date0 t htok h
    obtain ⟨parts', date0', date, htok', hfin⟩ := processStartLine_ok_cases seg y l t h
    rw [htok] at htok'
    injection htok' with h1
    injection h1 with hp hd
    subst hp
    obtain ⟨balance, amount, hb, ha, rfl⟩ := finishStart_inv seg parts date t hfin
    rfl

/-- Claim C9 (confirmed): on any input lines, any year value and any word
segmenter, the two parser copies produce elementwise-agreeing results —
identical description, withdrawal, deposit and balance, identical error
behavior, and dates that are the human-readable versus ISO renderings of
one underlying parsed date (or the identical raw token when no year is
resolved). -/
theorem c9_copies_agree_except_date (seg : String → String) (lines : List String)
    (extracted_year : Option String) :
    AgreeRes (extract_transactions_from_page seg lines extracted_year)
      (DataProcessor.extract_transactions seg lines extracted_year) :=
  pageLoop_agree seg extracted_year lines List.Forall₂.nil

/-- Claim C10 (confirmed): the page parser is not total on month-prefixed
lines: the single-token line "Jan" loses its only token to the
trailing-alphabetic deletion and then `parts[0]` raises IndexError, and the
two-token line "Jan Deposit" with no resolved year loses "Deposit" and then
`parts[-2]` raises IndexError — both at the public interface. -/
theorem c10_index_error_reachable :
    extract_transactions_from_page idSeg ["Jan"] none = .error .indexError ∧
    extract_transactions_from_page idSeg ["Jan Deposit"] none = .error .indexError :=
  ⟨rfl, rfl⟩
